import Mathlib

/-!
Shallow embedding of the request-forwarding pipeline of a Go Fiber API
gateway: the prefix router, the HTTP forwarder with its response cache, the
WebSocket forwarder, and the resilience wrappers (sony/gobreaker circuit
breaker, eapache/go-resiliency retrier).  Paths, headers and URLs are Go
strings; times are UnixNano integers modelled as Int; Go slices and maps are
association lists.
-/

namespace Gateway

/-- Go strings.HasPrefix. -/
def goHasPrefix (s pre : String) : Bool := pre.data.isPrefixOf s.data

/-- Go strings.HasSuffix. -/
def goHasSuffix (s suf : String) : Bool := suf.data.isSuffixOf s.data

/-- Go strings.TrimPrefix: remove pre from the front of s when it is there. -/
def goTrimPrefix (s pre : String) : String :=
  if goHasPrefix s pre then String.mk (s.data.drop pre.data.length) else s

/-- Go strings.ToLower.  The header names handled by the gateway are ASCII,
for which Unicode lowering and per-character lowering agree. -/
def goToLower (s : String) : String := String.mk (s.data.map Char.toLower)

/-- Go strings.EqualFold.  Go performs Unicode simple case folding; on the
ASCII header names compared by the gateway this coincides with comparing the
lowercased strings. -/
def goEqualFold (a b : String) : Bool := goToLower a == goToLower b

/-- Base-path normalization performed by Router.RegisterService for the HTTP
route (router.go lines 72-75 ensure the leading slash, lines 150-152 the
trailing slash). -/
def normalizeBasePathHTTP (basePath : String) : String :=
  let bp := if goHasPrefix basePath "/" then basePath else "/" ++ basePath
  if goHasSuffix bp "/" then bp else bp ++ "/"

/-- Fiber v2 wildcard routing for the registered pattern bp ++ "*": a request
path matches when bp is a prefix of it, and c.Params of the wildcard name
returns only the text the wildcard matched, so the base path itself is never
part of the captured parameter.  (Fiber additionally matches
case-insensitively and tolerates a missing trailing slash; the claims are
settled on exact-prefix matches, where those relaxations play no role.) -/
def fiberWildcardParam (bp requestPath : String) : Option String :=
  if goHasPrefix requestPath bp then
    some (String.mk (requestPath.data.drop bp.data.length))
  else none

/-- Path rewrite in the ALL base_path/* handler (router.go lines 165-169):
path starts as the captured wildcard parameter; when svc.StripBasePath is set
it is additionally passed through strings.TrimPrefix with the normalized base
path. -/
def httpRewritePath (bp : String) (strip : Bool) (wildcard : String) : String :=
  if strip then goTrimPrefix wildcard bp else wildcard

/-- Outbound path composed by HTTPProxy.Forward (router.go concatenated proxy
part, lines 338-351): the parsed target URL path when it is neither empty nor
a bare slash, followed by the rewritten path with a slash ensured in front. -/
def forwardOutboundPath (targetPath pathArg : String) : String :=
  let base := if targetPath ≠ "" ∧ targetPath ≠ "/" then targetPath else ""
  if pathArg ≠ "" then
    if goHasPrefix pathArg "/" then base ++ pathArg else base ++ "/" ++ pathArg
  else base

/-- End-to-end outbound path for an inbound HTTP request dispatched through
the registered ALL route of a service: Fiber wildcard capture, the
conditional strip, then the Forward path composition.  none when the route
does not match the request path. -/
def httpOutboundPath (svcBasePath : String) (strip : Bool)
    (targetPath requestPath : String) : Option String :=
  let bp := normalizeBasePathHTTP svcBasePath
  (fiberWildcardParam bp requestPath).map fun w =>
    forwardOutboundPath targetPath (httpRewritePath bp strip w)

/-- Path rewrite in Router.handleWebSocket (router.go lines 220-231): strip
svc.BasePath (raw, un-normalized) when configured, defaulting to "/" when the
stripped result is empty, then route to the default internal WebSocket path
by prepending "/socket.io" unless the path already begins with it. -/
def wsRewritePath (svcBasePath : String) (strip : Bool) (path : String) : String :=
  let wsPath :=
    if strip then
      let t := goTrimPrefix path svcBasePath
      if t = "" then "/" else t
    else path
  if goHasPrefix wsPath "/socket.io" then wsPath else "/socket.io" ++ wsPath

/-- WebSocket scheme choice in ProxyWebSocket (websocket.go lines 94-99). -/
def wsScheme (targetScheme : String) : String :=
  if targetScheme = "https" then "wss" else "ws"

/-- Leading-slash fix on the forwarded path (websocket.go lines 102-104). -/
def wsEnsureSlash (path : String) : String :=
  if path ≠ "" ∧ goHasPrefix path "/" = false then "/" ++ path else path

/-- Split a character list at the first question mark, dropping it. -/
def splitAtQMark : List Char → List Char × List Char
  | [] => ([], [])
  | c :: cs =>
    if c = '?' then ([], cs)
    else
      let r := splitAtQMark cs
      (c :: r.1, r.2)

/-- url.Parse applied to the forwarded path (websocket.go line 115),
restricted to the path-with-optional-query shape handleWebSocket produces (no
scheme, fragment or percent escapes): Path is everything before the first
question mark and RawQuery everything after it. -/
def urlSplitPathQuery (p : String) : String × String :=
  let r := splitAtQMark p.data
  (String.mk r.1, String.mk r.2)

/-- Query selection in ProxyWebSocket (websocket.go lines 106-126): start
from the X-Original-Query header value, then let a query embedded in the
parsed path win. -/
def wsQueryParams (pathRawQuery xOriginalQuery : String) : String :=
  if pathRawQuery ≠ "" then pathRawQuery else xOriginalQuery

/-- Upstream dial URL composed by WebSocketProxy.ProxyWebSocket
(websocket.go lines 128-134): matching ws or wss scheme, the target origin
host, the parsed path, and the selected query if any. -/
def wsDialURL (targetScheme targetHost path xOriginalQuery : String) : String :=
  let p := wsEnsureSlash path
  let pq := urlSplitPathQuery p
  let q := wsQueryParams pq.2 xOriginalQuery
  wsScheme targetScheme ++ "://" ++ targetHost ++ pq.1 ++
    (if q ≠ "" then "?" ++ q else "")

/-- Go strings.TrimSuffix: remove suf from the end of s when it is there. -/
def goTrimSuffix (s suf : String) : String :=
  if goHasSuffix s suf then
    String.mk (s.data.take (s.data.length - suf.data.length))
  else s

/-- Forwarded path deposited by the WebSocket route handler of
Router.RegisterService (router.go lines 120-125): the inbound request path,
guarded by a TrimSuffix of a literal "/*", with the raw query embedded after
a question mark when one is present. -/
def wsForwardedPath (reqPath query : String) : String :=
  if query ≠ "" then goTrimSuffix reqPath "/*" ++ "?" ++ query
  else goTrimSuffix reqPath "/*"

/-- End-to-end upstream dial URL for an inbound WebSocket request: the
route handler embeds the query into the forwarded path and carries the raw
query in X-Original-Query (router.go lines 115-127), handleWebSocket
rewrites the path, ProxyWebSocket composes the URL. -/
def wsDialURLOfRequest (targetScheme targetHost basePath : String)
    (strip : Bool) (reqPath query : String) : String :=
  wsDialURL targetScheme targetHost
    (wsRewritePath basePath strip (wsForwardedPath reqPath query)) query

/-- Path component of the dial URL as the amended claim states it: the
inbound request path with base_path stripped iff strip_base_path, the empty
default "/" applying only when the request also carries no query (because
handleWebSocket tests the path with the query already embedded for
emptiness), then the "/socket.io" prefix unless already present. -/
def wsPredictedPath (basePath : String) (strip : Bool)
    (reqPath query : String) : String :=
  let t :=
    if strip then
      let t0 := goTrimPrefix reqPath basePath
      if t0 = "" ∧ query = "" then "/" else t0
    else reqPath
  if goHasPrefix t "/socket.io" then t else "/socket.io" ++ t

/-- Go map assignment m[k] = v on an association-list model: overwrite the
entry for k when present, else append a new one. -/
def assocSet {β : Type} : List (String × β) → String → β → List (String × β)
  | [], k, v => [(k, v)]
  | p :: rest, k, v => if p.1 = k then (k, v) :: rest else p :: assocSet rest k v

/-- Go map read m[k] on the association-list model. -/
def assocGet {β : Type} (m : List (String × β)) (k : String) : Option β :=
  (m.find? fun p => p.1 == k).map fun p => p.2

/-- Go strings.Trim with cutset of square brackets: remove all leading and
trailing occurrences of either bracket. -/
def goTrimBrackets (s : String) : String :=
  String.mk (((s.data.dropWhile fun c => c == '[' || c == ']').reverse.dropWhile
    fun c => c == '[' || c == ']').reverse)

/-- Split a character list around every comma, Go strings.Split style. -/
def splitOnCommaAux : List Char → List (List Char)
  | [] => [[]]
  | c :: cs =>
    let r := splitOnCommaAux cs
    if c = ',' then [] :: r
    else
      match r with
      | [] => [[c]]
      | h :: t => (c :: h) :: t

/-- Go strings.Split with separator comma. -/
def goSplitComma (s : String) : List String := (splitOnCommaAux s.data).map String.mk

/-- Go strings.TrimSpace.  Go trims all Unicode white space; the values the
gateway splits carry only ASCII white space, where this model agrees. -/
def goTrimSpace (s : String) : String :=
  String.mk ((s.data.dropWhile Char.isWhitespace).reverse.dropWhile
    Char.isWhitespace).reverse

/-- Header-drop predicate shared by the WebSocket route handler in
Router.RegisterService (router.go lines 92-94) and by ProxyWebSocket
(websocket.go lines 147-148): keys beginning case-insensitively with
"sec-websocket-" and keys equal-fold to Upgrade or Connection are dropped. -/
def wsHeaderDrop (key : String) : Bool :=
  goHasPrefix (goToLower key) "sec-websocket-" || goEqualFold key "Upgrade" ||
    goEqualFold key "Connection"

/-- Fiber c.Get: case-insensitive request-header lookup returning the first
value, or the empty string when the header is absent. -/
def reqGet (req : List (String × List String)) (key : String) : String :=
  match req.find? fun p => goEqualFold p.1 key with
  | some (_, v :: _) => v
  | _ => ""

/-- Loop body for the four canonical WebSocket headers in
Router.RegisterService (router.go lines 100-109): re-add the header from the
original request when its value is non-empty. -/
def canonAdd (req : List (String × List String)) (m : List (String × String))
    (k : String) : List (String × String) :=
  if reqGet req k ≠ "" then assocSet m k (reqGet req k) else m

/-- Header map prepared by the WebSocket route handler in
Router.RegisterService (router.go lines 88-118): copy every non-empty
request-header value whose key is not dropped (later values overwrite
earlier ones, as Go map assignment does), re-add the four canonical
WebSocket headers from the original request, then set X-Real-IP,
X-Forwarded-For (falling back to the client IP when the request carries
none) and, when a query string is present, X-Original-Query. -/
def prepWSHeaders (req : List (String × List String)) (ip queryString : String) :
    List (String × String) :=
  let m : List (String × String) :=
    req.foldl (fun m kv =>
      kv.2.foldl (fun m v =>
        if v ≠ "" ∧ wsHeaderDrop kv.1 = false then assocSet m kv.1 v else m) m) []
  let m := canonAdd req m "Sec-WebSocket-Key"
  let m := canonAdd req m "Sec-WebSocket-Version"
  let m := canonAdd req m "Sec-WebSocket-Extensions"
  let m := canonAdd req m "Sec-WebSocket-Protocol"
  let m := assocSet m "X-Real-IP" ip
  let xff := reqGet req "X-Forwarded-For"
  let m := assocSet m "X-Forwarded-For" (if xff = "" then ip else xff)
  if queryString ≠ "" then assocSet m "X-Original-Query" queryString else m

/-- http.Header.Add.  Go canonicalizes MIME header keys; the model keys
entries by the given name, which preserves every property the theorems state
since those compare keys case-insensitively. -/
def headerAdd (h : List (String × String)) (k v : String) : List (String × String) :=
  h ++ [(k, v)]

/-- http.Header.Set: replace whatever is stored under the key. -/
def headerSet (h : List (String × String)) (k v : String) : List (String × String) :=
  (h.filter fun p => !(p.1 == k)) ++ [(k, v)]

/-- Bracketed-list shape test of websocket.go line 153. -/
def looksBracketed (v : String) : Bool := goHasPrefix v "[" && goHasSuffix v "]"

/-- One prepared-map entry processed by the dial-header loop of
ProxyWebSocket (websocket.go lines 145-165): skip empty values and dropped
keys, split bracketed list values into one Add per cleaned element, Add
everything else verbatim. -/
def dialHeaderStep (h : List (String × String)) (kv : String × String) :
    List (String × String) :=
  if kv.2 = "" ∨ wsHeaderDrop kv.1 = true then h
  else if looksBracketed kv.2 then
    (goSplitComma (goTrimBrackets kv.2)).foldl (fun h val =>
      let val := goTrimSpace val
      if val ≠ "" then headerAdd h kv.1 val else h) h
  else headerAdd h kv.1 kv.2

/-- Dial headers prepared by ProxyWebSocket (websocket.go lines 142-169):
run the loop over the prepared map, then set X-Source and Host. -/
def dialHeaders (m : List (String × String)) (targetHost : String) :
    List (String × String) :=
  headerSet (headerSet (m.foldl dialHeaderStep []) "X-Source" "api-gateway")
    "Host" targetHost

/-- Removal of X-Original-Query before the dial (websocket.go lines 107-112):
when the prepared map carries a query it is deleted to prevent duplication. -/
def dropOriginalQuery (m : List (String × String)) : List (String × String) :=
  if (assocGet m "X-Original-Query").getD "" ≠ "" then
    m.filter fun p => !(p.1 == "X-Original-Query")
  else m

/-- End-to-end outgoing header set for a WebSocket dial: router preparation,
query-header removal, dial-header loop. -/
def wsOutHeaders (req : List (String × List String)) (ip queryString targetHost : String) :
    List (String × String) :=
  dialHeaders (dropOriginalQuery (prepWSHeaders req ip queryString)) targetHost

/-- Error values flowing through the resilience layer: the two sentinel
errors of sony/gobreaker, fiber errors carrying an HTTP status, and opaque
upstream errors. -/
inductive GwErr
  | gbOpenState
  | gbTooManyRequests
  | fiberErr (code : Nat) (msg : String)
  | upstream (tag : Nat)
deriving DecidableEq

/-- sony/gobreaker states. -/
inductive GBState
  | stClosed
  | stOpen
  | stHalfOpen
deriving DecidableEq

/-- sony/gobreaker Counts.  The Go fields are uint32; every statement proved
here keeps the counters far below 2^32, so they are modelled as Nat. -/
structure GBCounts where
  requests : Nat
  totalSuccesses : Nat
  totalFailures : Nat
  consecutiveSuccesses : Nat
  consecutiveFailures : Nat
deriving DecidableEq

def countsClear : GBCounts := ⟨0, 0, 0, 0, 0⟩

def countsOnRequest (c : GBCounts) : GBCounts :=
  { c with requests := c.requests + 1 }

def countsOnSuccess (c : GBCounts) : GBCounts :=
  { c with totalSuccesses := c.totalSuccesses + 1,
           consecutiveSuccesses := c.consecutiveSuccesses + 1,
           consecutiveFailures := 0 }

def countsOnFailure (c : GBCounts) : GBCounts :=
  { c with totalFailures := c.totalFailures + 1,
           consecutiveFailures := c.consecutiveFailures + 1,
           consecutiveSuccesses := 0 }

/-- sony/gobreaker CircuitBreaker, instantiated the way NewCircuitBreaker of
the gateway builds it (circuitbreaker.go lines 22-48): MaxRequests and the
ReadyToTrip threshold both come from resilience.failure_threshold, Interval
is left zero, Timeout is resilience.reset_timeout seconds.  Times are
UnixNano Ints and the Go zero time is modelled as expiry none. -/
structure Breaker where
  state : GBState
  counts : GBCounts
  generation : Nat
  expiry : Option Int
  maxRequests : Nat
  intervalNs : Int
  timeoutNs : Int
  failureThreshold : Nat
deriving DecidableEq

/-- ReadyToTrip closure installed by NewCircuitBreaker (circuitbreaker.go
lines 28-31): counts.Requests at least uint32(failure_threshold) and the
float64 ratio TotalFailures/Requests at least 0.5.  With Requests = 0 the
ratio is NaN and the comparison is false; with 0 < Requests < 2^32 both
counts are exact in float64 and the rounding error of the quotient is
smaller than the distance of any ratio other than exactly 0.5 from 0.5, so
the float comparison agrees with the exact test 2*TotalFailures >=
Requests. -/
def readyToTrip (threshold : Nat) (c : GBCounts) : Bool :=
  decide (threshold ≤ c.requests) && decide (0 < c.requests) &&
    decide (c.requests ≤ 2 * c.totalFailures)

/-- gobreaker toNewGeneration: bump the generation, clear the counts, reset
the expiry from the new state. -/
def toNewGeneration (b : Breaker) (now : Int) : Breaker :=
  let b := { b with generation := b.generation + 1, counts := countsClear }
  match b.state with
  | .stClosed =>
    if b.intervalNs = 0 then { b with expiry := none }
    else { b with expiry := some (now + b.intervalNs) }
  | .stOpen => { b with expiry := some (now + b.timeoutNs) }
  | .stHalfOpen => { b with expiry := none }

/-- gobreaker setState: no-op on the same state, else switch and start a new
generation (the OnStateChange logging callback is elided). -/
def setState (b : Breaker) (s : GBState) (now : Int) : Breaker :=
  if b.state = s then b else toNewGeneration { b with state := s } now

/-- gobreaker currentState: closed generations roll over when an interval
expiry has passed, the open state decays to half-open when the reset timeout
has passed.  Go compares cb.expiry.Before(now); an open breaker always has
its expiry set, and the zero-time case (none) is treated as elapsed, as it
is for every realistic clock value. -/
def currentState (b : Breaker) (now : Int) : Breaker :=
  match b.state with
  | .stClosed =>
    match b.expiry with
    | some e => if e < now then toNewGeneration b now else b
    | none => b
  | .stOpen =>
    match b.expiry with
    | some e => if e < now then setState b .stHalfOpen now else b
    | none => setState b .stHalfOpen now
  | .stHalfOpen => b

/-- gobreaker beforeRequest: refuse with ErrOpenState when open, refuse with
ErrTooManyRequests when half-open at the probe limit, else count the
admitted request.  Returns the generation observed. -/
def beforeRequest (b : Breaker) (now : Int) : Breaker × Nat × Option GwErr :=
  let b := currentState b now
  match b.state with
  | .stOpen => (b, b.generation, some .gbOpenState)
  | .stHalfOpen =>
    if b.maxRequests ≤ b.counts.requests then
      (b, b.generation, some .gbTooManyRequests)
    else ({ b with counts := countsOnRequest b.counts }, b.generation, none)
  | .stClosed => ({ b with counts := countsOnRequest b.counts }, b.generation, none)

/-- gobreaker onSuccess. -/
def gbOnSuccess (b : Breaker) (state : GBState) (now : Int) : Breaker :=
  match state with
  | .stClosed => { b with counts := countsOnSuccess b.counts }
  | .stHalfOpen =>
    let b := { b with counts := countsOnSuccess b.counts }
    if b.maxRequests ≤ b.counts.consecutiveSuccesses then
      setState b .stClosed now
    else b
  | .stOpen => b

/-- gobreaker onFailure. -/
def gbOnFailure (b : Breaker) (state : GBState) (now : Int) : Breaker :=
  match state with
  | .stClosed =>
    let b := { b with counts := countsOnFailure b.counts }
    if readyToTrip b.failureThreshold b.counts then setState b .stOpen now else b
  | .stHalfOpen => setState b .stOpen now
  | .stOpen => b

/-- gobreaker afterRequest: ignore outcomes from a stale generation, else
record the success or failure against the current state. -/
def afterRequest (b : Breaker) (now : Int) (before : Nat) (success : Bool) :
    Breaker :=
  let b := currentState b now
  if b.generation ≠ before then b
  else if success then gbOnSuccess b b.state now else gbOnFailure b b.state now

/-- gobreaker CircuitBreaker.Execute on a thunk whose single invocation
yields the given result.  The Bool reports whether the thunk was invoked;
the single-threaded embedding evaluates before, thunk and after at the same
clock value.  The panic re-raise path cannot arise here. -/
def gbExecute (b : Breaker) (now : Int) (fn : Option GwErr) :
    Breaker × Option GwErr × Bool :=
  match beforeRequest b now with
  | (b1, _, some e) => (b1, some e, false)
  | (b1, gen, none) => (afterRequest b1 now gen fn.isNone, fn, true)

/-- Gateway CircuitBreaker.Execute (circuitbreaker.go lines 51-66): run the
thunk under gobreaker and map ErrOpenState, and only that error, to the
fiber 503 "Service temporarily unavailable" error. -/
def cbExecute (b : Breaker) (now : Int) (fn : Option GwErr) :
    Breaker × Option GwErr × Bool :=
  match gbExecute b now fn with
  | (b1, some e, invoked) =>
    if e = .gbOpenState then
      (b1, some (.fiberErr 503 "Service temporarily unavailable"), invoked)
    else (b1, some e, invoked)
  | (b1, none, invoked) => (b1, none, invoked)

/-- Retry loop of eapache/go-resiliency retrier.Run, specialised to the
default classifier (nil is Succeed, any non-nil error is Retry) and to the
ExponentialBackoff slice of length max_retries that NewRetrier builds
(retry.go lines 20-35): invoke the work function; return nil on success; on
error return it once the retries are exhausted, else sleep and go again.
fn i is the outcome of the i-th invocation, k the number of retries still
allowed; the result pairs the final error with the number of invocations
made. -/
def retrierLoop (fn : Nat → Option GwErr) (i : Nat) : Nat → Option GwErr × Nat
  | 0 => (fn i, 1)
  | k + 1 =>
    match fn i with
    | none => (none, 1)
    | some _ =>
      let r := retrierLoop fn (i + 1) k
      (r.1, r.2 + 1)

/-- eapache/go-resiliency retrier.Run over the backoff slice of length
maxRetries. -/
def retrierRun (maxRetries : Nat) (fn : Nat → Option GwErr) :
    Option GwErr × Nat :=
  retrierLoop fn 0 maxRetries

/-- Gateway Retrier.Execute (retry.go lines 38-66): run the thunk under
retrier.Run while tracking lastErr; when Run reports an error, lastErr was
set by the final failing invocation and equals the error Run returned, so
Execute returns the loop result unchanged. -/
def retrierExecute (maxRetries : Nat) (fn : Nat → Option GwErr) :
    Option GwErr × Nat :=
  retrierRun maxRetries fn

/-- Thunk-level model of Router.handleHTTP's resilience dispatch (router.go
lines 193-211).  fn i is the outcome of the i-th HTTPProxy.Forward
invocation; each flag models the configuration bit together with the
corresponding non-nil wrapper, which New constructs exactly when the bit is
set.  Returns the error handed back to the caller, the breaker afterwards,
and how many times Forward ran. -/
def handleHTTPDispatch (enableCB enableRetry : Bool) (b : Breaker) (now : Int)
    (maxRetries : Nat) (fn : Nat → Option GwErr) :
    Option GwErr × Breaker × Nat :=
  if enableCB then
    let chain := if enableRetry then retrierExecute maxRetries fn else (fn 0, 1)
    let r := cbExecute b now chain.1
    (r.2.1, r.1, if r.2.2 then chain.2 else 0)
  else if enableRetry then
    let r := retrierExecute maxRetries fn
    (r.1, b, r.2)
  else (fn 0, b, 1)

/-- Success plus failure totals of a counts record. -/
def totalsOf (c : GBCounts) : Nat := c.totalSuccesses + c.totalFailures

/-- Closed breaker as NewCircuitBreaker builds it with failure_threshold 4
and reset_timeout 30s: closed, zeroed counts, no interval expiry. -/
def cbClosedInit : Breaker :=
  ⟨GBState.stClosed, countsClear, 0, none, 4, 0, 30000000000, 4⟩

/-- Nanoseconds per second, the factor of time.Duration(n) * time.Second. -/
def nsPerSecond : Int := 1000000000

/-- Item of pkg/cache (cache.go lines 9-12): value and UnixNano expiration,
zero meaning no expiry. -/
structure CacheItem (α : Type) where
  value : α
  expiration : Int
deriving DecidableEq

/-- Cache of pkg/cache (cache.go lines 15-21): the items map plus the two
durations, held in nanoseconds. -/
structure CacheModel (α : Type) where
  items : List (String × CacheItem α)
  defaultExpiration : Int
  cleanupInterval : Int
deriving DecidableEq

/-- cache.New (cache.go lines 24-39): both durations are
time.Duration(ttl) * time.Second.  The Go int stays far from overflowing
int64 nanoseconds for configuration-sized values, so the products are
exact. -/
def cacheNew (α : Type) (ttl : Int) : CacheModel α :=
  { items := [], defaultExpiration := ttl * nsPerSecond,
    cleanupInterval := ttl * nsPerSecond }

/-- Cache.SetWithExpiration (cache.go lines 47-66) at clock value now: zero
duration selects the default TTL, a positive duration sets an absolute
expiration, a negative one leaves the zero no-expiry marker. -/
def cacheSetWithExpiration {α : Type} (c : CacheModel α) (key : String)
    (value : α) (duration now : Int) : CacheModel α :=
  let d := if duration = 0 then c.defaultExpiration else duration
  let exp := if 0 < d then now + d else 0
  { c with items := assocSet c.items key ⟨value, exp⟩ }

/-- Cache.Set (cache.go lines 42-44): SetWithExpiration at the default
TTL. -/
def cacheSet {α : Type} (c : CacheModel α) (key : String) (value : α)
    (now : Int) : CacheModel α :=
  cacheSetWithExpiration c key value c.defaultExpiration now

/-- Cache.Get (cache.go lines 69-84) at clock value now: settled misses for
absent keys and for entries whose positive expiration lies strictly in the
past, whether or not the sweeper has removed them. -/
def cacheGet {α : Type} (c : CacheModel α) (key : String) (now : Int) :
    Option α × Bool :=
  match assocGet c.items key with
  | none => (none, false)
  | some item =>
    if 0 < item.expiration ∧ item.expiration < now then (none, false)
    else (some item.value, true)

/-- time.NewTicker of the Go standard library panics exactly when the
interval is not positive ("non-positive interval for NewTicker"); the panic
is modelled as Except.error. -/
def newTicker (d : Int) : Except String Int :=
  if d ≤ 0 then Except.error "non-positive interval for NewTicker"
  else Except.ok d

/-- First step of the sweeper goroutine Cache.startCleanup (cache.go lines
116-118): construct the ticker from the cleanup interval. -/
def startCleanupTicker {α : Type} (c : CacheModel α) : Except String Int :=
  newTicker c.cleanupInterval

/-- Upstream interaction of one Forward call: the transport either fails
(client.Do error), delivers a response whose body read then fails, or
delivers a fully read status and body. -/
inductive UpstreamResult (α : Type)
  | transportErr
  | readErr (status : Nat)
  | ok (status : Nat) (body : α)
deriving DecidableEq

/-- Inbound request fields Forward reads: the Upgrade header, the method,
and the path and raw query that form the cache key. -/
structure FwdRequest where
  upgrade : String
  method : String
  path : String
  query : String
deriving DecidableEq

/-- Response-side effect of Forward: fall through to the next handler, a
fiber error status, or a sent status and body. -/
inductive FwdOutcome (α : Type)
  | next
  | fiberError (code : Nat)
  | send (status : Nat) (body : α)
deriving DecidableEq

/-- getCacheKey (router.go concatenated proxy part, lines 417-422). -/
def getCacheKey (path query : String) : String :=
  if query ≠ "" then path ++ "?" ++ query else path

/-- HTTPProxy.Forward (router.go concatenated proxy part, lines 312-414) at
the level the cache claims need: the WebSocket yield, the GET cache probe (a
hit is sent with fiber's default 200 status), target parsing (500 on
failure), the upstream call (502 on transport failure, 500 on body-read
failure) and the conditional cache insert.  hasCache models p.cache != nil,
which NewHTTPProxy makes equivalent to proxy.enable_cache; the result pairs
the response with the cache afterwards. -/
def httpForward (α : Type) (enableCache hasCache : Bool) (req : FwdRequest)
    (targetOk : Bool) (upstream : UpstreamResult α) (c : CacheModel α)
    (now : Int) : FwdOutcome α × CacheModel α :=
  if req.upgrade = "websocket" then (.next, c)
  else
    let key := getCacheKey req.path req.query
    let probe : Option α :=
      if enableCache = true ∧ hasCache = true ∧ req.method = "GET" then
        match cacheGet c key now with
        | (some v, true) => some v
        | _ => none
      else none
    match probe with
    | some v => (.send 200 v, c)
    | none =>
      if targetOk = false then (.fiberError 500, c)
      else
        match upstream with
        | .transportErr => (.fiberError 502, c)
        | .readErr _ => (.fiberError 500, c)
        | .ok status body =>
          let c2 := if enableCache = true ∧ hasCache = true ∧
              req.method = "GET" ∧ status = 200 then
              cacheSet c key body now
            else c
          (.send status body, c2)

theorem mem_assocSet_self {β : Type} (m : List (String × β)) (k : String) (v : β) :
    (k, v) ∈ assocSet m k v := by
  induction m with
  | nil => simp [assocSet]
  | cons p rest ih =>
    by_cases h : p.1 = k
    · simp [assocSet, h]
    · simp only [assocSet, if_neg h, List.mem_cons]
      exact Or.inr ih

theorem mem_assocSet_of_ne {β : Type} {m : List (String × β)} {k' : String} {v' : β}
    (k : String) (v : β) (hm : (k', v') ∈ m) (hne : k' ≠ k) :
    (k', v') ∈ assocSet m k v := by
  induction m with
  | nil => cases hm
  | cons p rest ih =>
    by_cases h : p.1 = k
    · rcases List.mem_cons.mp hm with rfl | hm'
      · exact absurd h hne
      · simp only [assocSet, if_pos h, List.mem_cons]
        exact Or.inr hm'
    · rcases List.mem_cons.mp hm with rfl | hm'
      · simp [assocSet, if_neg h]
      · simp only [assocSet, if_neg h, List.mem_cons]
        exact Or.inr (ih hm')

theorem mem_canonAdd_self (req : List (String × List String))
    (m : List (String × String)) (k : String) (hv : reqGet req k ≠ "") :
    (k, reqGet req k) ∈ canonAdd req m k := by
  unfold canonAdd
  rw [if_pos hv]
  exact mem_assocSet_self m k (reqGet req k)

theorem mem_canonAdd_of_ne {m : List (String × String)} {k' : String} {v' : String}
    (req : List (String × List String)) (k : String) (hm : (k', v') ∈ m)
    (hne : k' ≠ k) : (k', v') ∈ canonAdd req m k := by
  unfold canonAdd
  split
  · exact mem_assocSet_of_ne k _ hm hne
  · exact hm

theorem mem_bracketFold_superset (k : String) (vals : List String)
    (acc : List (String × String)) (x : String × String) (hx : x ∈ acc) :
    x ∈ vals.foldl (fun h val =>
      let val := goTrimSpace val
      if val ≠ "" then headerAdd h k val else h) acc := by
  induction vals generalizing acc with
  | nil => exact hx
  | cons v rest ih =>
    apply ih
    dsimp only
    split
    · exact List.mem_append_left _ hx
    · exact hx

theorem mem_bracketFold_cases (k : String) (vals : List String)
    (acc : List (String × String)) (x : String × String)
    (hx : x ∈ vals.foldl (fun h val =>
      let val := goTrimSpace val
      if val ≠ "" then headerAdd h k val else h) acc) :
    x ∈ acc ∨ x.1 = k := by
  induction vals generalizing acc with
  | nil => exact Or.inl hx
  | cons v rest ih =>
    rcases ih _ hx with h | h
    · dsimp only at h
      split at h
      · rcases List.mem_append.mp h with h' | h'
        · exact Or.inl h'
        · simp only [List.mem_singleton] at h'
          subst h'
          exact Or.inr rfl
      · exact Or.inl h
    · exact Or.inr h

theorem mem_dialHeaderStep_superset (h : List (String × String))
    (kv x : String × String) (hx : x ∈ h) : x ∈ dialHeaderStep h kv := by
  unfold dialHeaderStep
  split
  · exact hx
  · split
    · exact mem_bracketFold_superset _ _ _ _ hx
    · exact List.mem_append_left _ hx

theorem mem_dialFold_superset (m : List (String × String))
    (acc : List (String × String)) (x : String × String) (hx : x ∈ acc) :
    x ∈ m.foldl dialHeaderStep acc := by
  induction m generalizing acc with
  | nil => exact hx
  | cons p rest ih => exact ih _ (mem_dialHeaderStep_superset _ _ _ hx)

theorem mem_dialFold_of_mem (kv : String × String) (hv : kv.2 ≠ "")
    (hd : wsHeaderDrop kv.1 = false) (hb : looksBracketed kv.2 = false) :
    ∀ (m acc : List (String × String)), kv ∈ m →
      kv ∈ m.foldl dialHeaderStep acc := by
  intro m
  induction m with
  | nil => intro acc h; cases h
  | cons p rest ih =>
    intro acc hkv
    rw [List.foldl_cons]
    rcases List.mem_cons.mp hkv with rfl | hm'
    · apply mem_dialFold_superset
      unfold dialHeaderStep
      rw [if_neg (by simp [hv, hd]), if_neg (by simp [hb])]
      exact List.mem_append_right _ (List.mem_singleton.mpr rfl)
    · exact ih _ hm'

theorem dialFold_drop_false (m : List (String × String)) :
    ∀ acc : List (String × String),
      (∀ x ∈ acc, wsHeaderDrop x.1 = false) →
      ∀ x ∈ m.foldl dialHeaderStep acc, wsHeaderDrop x.1 = false := by
  induction m with
  | nil => intro acc hacc; exact hacc
  | cons p rest ih =>
    intro acc hacc
    rw [List.foldl_cons]
    apply ih
    intro x hx
    unfold dialHeaderStep at hx
    split at hx
    · exact hacc x hx
    · next hguard =>
      have hp : wsHeaderDrop p.1 = false := by
        cases hw : wsHeaderDrop p.1 with
        | false => rfl
        | true => exact absurd (Or.inr hw) hguard
      split at hx
      · rcases mem_bracketFold_cases _ _ _ _ hx with h' | h'
        · exact hacc x h'
        · rw [h']
          exact hp
      · rcases List.mem_append.mp hx with h' | h'
        · exact hacc x h'
        · simp only [List.mem_singleton] at h'
          subst h'
          exact hp

theorem mem_prep_post (ip queryString w : String) (m : List (String × String))
    (k v : String) (hm : (k, v) ∈ m) (h1 : k ≠ "X-Real-IP")
    (h2 : k ≠ "X-Forwarded-For") (h3 : k ≠ "X-Original-Query") :
    (k, v) ∈ (if queryString ≠ "" then
        assocSet (assocSet (assocSet m "X-Real-IP" ip) "X-Forwarded-For" w)
          "X-Original-Query" queryString
      else assocSet (assocSet m "X-Real-IP" ip) "X-Forwarded-For" w) := by
  have a := mem_assocSet_of_ne "X-Real-IP" ip hm h1
  have b := mem_assocSet_of_ne "X-Forwarded-For" w a h2
  split
  · exact mem_assocSet_of_ne "X-Original-Query" queryString b h3
  · exact b

theorem mem_headerSet_cases (h : List (String × String)) (k v : String)
    (x : String × String) (hx : x ∈ headerSet h k v) : x ∈ h ∨ x = (k, v) := by
  unfold headerSet at hx
  rcases List.mem_append.mp hx with h1 | h1
  · exact Or.inl (List.mem_of_mem_filter h1)
  · simp only [List.mem_singleton] at h1
    exact Or.inr h1

theorem mem_headerSet_of_ne (h : List (String × String)) (k v : String)
    (x : String × String) (hx : x ∈ h) (hne : x.1 ≠ k) : x ∈ headerSet h k v := by
  unfold headerSet
  apply List.mem_append_left
  exact List.mem_filter.mpr ⟨hx, by simp [hne]⟩

theorem retrierLoop_count_le (fn : Nat → Option GwErr) :
    ∀ k i, (retrierLoop fn i k).2 ≤ k + 1 := by
  intro k
  induction k with
  | zero => intro i; simp [retrierLoop]
  | succ k ih =>
    intro i
    cases hfe : fn i with
    | none => simp [retrierLoop, hfe]
    | some e =>
      simp only [retrierLoop, hfe]
      exact Nat.succ_le_succ (ih (i + 1))

theorem retrierLoop_count_eq (fn : Nat → Option GwErr)
    (h : ∀ j, (fn j).isSome = true) :
    ∀ k i, (retrierLoop fn i k).2 = k + 1 := by
  intro k
  induction k with
  | zero => intro i; simp [retrierLoop]
  | succ k ih =>
    intro i
    obtain ⟨e, he⟩ := Option.isSome_iff_exists.mp (h i)
    simp [retrierLoop, he, ih (i + 1)]

theorem totalsOf_toNewGeneration (b : Breaker) (now : Int) :
    totalsOf (toNewGeneration b now).counts = 0 := by
  obtain ⟨st, cts, gen, exp, mr, iv, tn, ft⟩ := b
  unfold toNewGeneration
  cases st
  · dsimp only
    split <;> rfl
  · rfl
  · rfl

theorem reqs_toNewGeneration (b : Breaker) (now : Int) :
    (toNewGeneration b now).counts.requests = 0 := by
  obtain ⟨st, cts, gen, exp, mr, iv, tn, ft⟩ := b
  unfold toNewGeneration
  cases st
  · dsimp only
    split <;> rfl
  · rfl
  · rfl

theorem totalsOf_setState_le (b : Breaker) (s : GBState) (now : Int) :
    totalsOf (setState b s now).counts ≤ totalsOf b.counts := by
  unfold setState
  split
  · exact Nat.le_refl _
  · rw [totalsOf_toNewGeneration]
    exact Nat.zero_le _

theorem reqs_setState_le (b : Breaker) (s : GBState) (now : Int) :
    (setState b s now).counts.requests ≤ b.counts.requests := by
  unfold setState
  split
  · exact Nat.le_refl _
  · rw [reqs_toNewGeneration]
    exact Nat.zero_le _

theorem totalsOf_currentState_le (b : Breaker) (now : Int) :
    totalsOf (currentState b now).counts ≤ totalsOf b.counts := by
  obtain ⟨st, cts, gen, exp, mr, iv, tn, ft⟩ := b
  unfold currentState
  cases st <;> cases exp
  · exact Nat.le_refl _
  · dsimp only
    split
    · rw [totalsOf_toNewGeneration]
      exact Nat.zero_le _
    · exact Nat.le_refl _
  · exact totalsOf_setState_le _ _ _
  · dsimp only
    split
    · exact totalsOf_setState_le _ _ _
    · exact Nat.le_refl _
  · exact Nat.le_refl _
  · exact Nat.le_refl _

theorem reqs_currentState_le (b : Breaker) (now : Int) :
    (currentState b now).counts.requests ≤ b.counts.requests := by
  obtain ⟨st, cts, gen, exp, mr, iv, tn, ft⟩ := b
  unfold currentState
  cases st <;> cases exp
  · exact Nat.le_refl _
  · dsimp only
    split
    · rw [reqs_toNewGeneration]
      exact Nat.zero_le _
    · exact Nat.le_refl _
  · exact reqs_setState_le _ _ _
  · dsimp only
    split
    · exact reqs_setState_le _ _ _
    · exact Nat.le_refl _
  · exact Nat.le_refl _
  · exact Nat.le_refl _

theorem totalsOf_gbOnSuccess_le (b : Breaker) (st : GBState) (now : Int) :
    totalsOf (gbOnSuccess b st now).counts ≤ totalsOf b.counts + 1 := by
  cases st
  · dsimp only [gbOnSuccess]
    simp only [totalsOf, countsOnSuccess]
    omega
  · exact Nat.le_succ _
  · dsimp only [gbOnSuccess]
    split
    · refine le_trans (totalsOf_setState_le _ _ _) ?_
      simp only [totalsOf, countsOnSuccess]
      omega
    · simp only [totalsOf, countsOnSuccess]
      omega

theorem reqs_gbOnSuccess_le (b : Breaker) (st : GBState) (now : Int) :
    (gbOnSuccess b st now).counts.requests ≤ b.counts.requests := by
  cases st
  · exact Nat.le_refl _
  · exact Nat.le_refl _
  · dsimp only [gbOnSuccess]
    split
    · exact reqs_setState_le _ _ _
    · exact Nat.le_refl _

theorem totalsOf_gbOnFailure_le (b : Breaker) (st : GBState) (now : Int) :
    totalsOf (gbOnFailure b st now).counts ≤ totalsOf b.counts + 1 := by
  cases st
  · dsimp only [gbOnFailure]
    split
    · refine le_trans (totalsOf_setState_le _ _ _) ?_
      simp only [totalsOf, countsOnFailure]
      omega
    · simp only [totalsOf, countsOnFailure]
      omega
  · exact Nat.le_succ _
  · exact le_trans (totalsOf_setState_le _ _ _) (Nat.le_succ _)

theorem reqs_gbOnFailure_le (b : Breaker) (st : GBState) (now : Int) :
    (gbOnFailure b st now).counts.requests ≤ b.counts.requests := by
  cases st
  · dsimp only [gbOnFailure]
    split
    · exact reqs_setState_le _ _ _
    · exact Nat.le_refl _
  · exact Nat.le_refl _
  · exact reqs_setState_le _ _ _

theorem totalsOf_afterRequest_le (b : Breaker) (now : Int) (gen : Nat)
    (s : Bool) :
    totalsOf (afterRequest b now gen s).counts ≤ totalsOf b.counts + 1 := by
  dsimp only [afterRequest]
  split
  · exact le_trans (totalsOf_currentState_le _ _) (Nat.le_succ _)
  · split
    · exact le_trans (totalsOf_gbOnSuccess_le _ _ _)
        (Nat.add_le_add_right (totalsOf_currentState_le _ _) 1)
    · exact le_trans (totalsOf_gbOnFailure_le _ _ _)
        (Nat.add_le_add_right (totalsOf_currentState_le _ _) 1)

theorem reqs_afterRequest_le (b : Breaker) (now : Int) (gen : Nat) (s : Bool) :
    (afterRequest b now gen s).counts.requests ≤ b.counts.requests := by
  dsimp only [afterRequest]
  split
  · exact reqs_currentState_le _ _
  · split
    · exact le_trans (reqs_gbOnSuccess_le _ _ _) (reqs_currentState_le _ _)
    · exact le_trans (reqs_gbOnFailure_le _ _ _) (reqs_currentState_le _ _)

theorem beforeRequest_counts_le (b : Breaker) (now : Int) :
    totalsOf (beforeRequest b now).1.counts ≤ totalsOf b.counts ∧
    (beforeRequest b now).1.counts.requests ≤ b.counts.requests + 1 := by
  have ht := totalsOf_currentState_le b now
  have hr := reqs_currentState_le b now
  unfold beforeRequest
  cases hcs : (currentState b now).state
  · simp only [hcs]
    exact ⟨ht, Nat.add_le_add_right hr 1⟩
  · simp only [hcs]
    exact ⟨ht, le_trans hr (Nat.le_succ _)⟩
  · simp only [hcs]
    split
    · exact ⟨ht, le_trans hr (Nat.le_succ _)⟩
    · exact ⟨ht, Nat.add_le_add_right hr 1⟩

theorem cbExecute_breaker_eq (b : Breaker) (now : Int) (fnv : Option GwErr) :
    (cbExecute b now fnv).1 = (gbExecute b now fnv).1 := by
  unfold cbExecute
  rcases hg : gbExecute b now fnv with ⟨b1, e, inv⟩
  cases e
  · rfl
  · dsimp only
    split <;> rfl

theorem gbExecute_breaker_bounds (b : Breaker) (now : Int) (fnv : Option GwErr) :
    totalsOf (gbExecute b now fnv).1.counts ≤ totalsOf b.counts + 1 ∧
    (gbExecute b now fnv).1.counts.requests ≤ b.counts.requests + 1 := by
  have hb := beforeRequest_counts_le b now
  unfold gbExecute
  rcases hbr : beforeRequest b now with ⟨b1, gen, rej⟩
  rw [hbr] at hb
  dsimp only at hb
  cases rej
  · dsimp only
    exact ⟨le_trans (totalsOf_afterRequest_le b1 now gen fnv.isNone)
        (Nat.add_le_add_right hb.1 1),
      le_trans (reqs_afterRequest_le b1 now gen fnv.isNone) hb.2⟩
  · dsimp only
    exact ⟨le_trans hb.1 (Nat.le_succ _), hb.2⟩

theorem assocGet_assocSet_self {β : Type} (m : List (String × β)) (k : String)
    (v : β) : assocGet (assocSet m k v) k = some v := by
  induction m with
  | nil => simp [assocSet, assocGet]
  | cons p rest ih =>
    by_cases h : p.1 = k
    · simp [assocSet, h, assocGet]
    · simp only [assocSet, if_neg h]
      have hbeq : (p.1 == k) = false := by simp [h]
      simp only [assocGet, List.find?] at ih ⊢
      rw [hbeq]
      exact ih

/-- C1: the claim states that with strip_base_path=false the outbound path
begins with the configured base_path prefix.  Evaluating the embedded
pipeline at the failing input (service base_path "/api", strip_base_path
false, target with empty path, inbound request "/api/foo") shows the gateway
sends the upstream the path "/foo", which does not begin with "/api": the
Fiber wildcard parameter already excludes the base path, so the conditional
TrimPrefix never sees it and the prefix is stripped regardless of the flag. -/
theorem C1_failing_eval :
    httpOutboundPath "/api" false "" "/api/foo" = some "/foo" ∧
    goHasPrefix "/foo" "/api" = false ∧
    goHasPrefix "/foo" "/api/" = false := by decide

/-- C2 counterexample: for service base_path "/b" with strip_base_path=false
and inbound WebSocket path "/b/chat" (no query), the claim says the dial URL
path equals the rewritten inbound path "/b/chat" with nothing else added, so
the dial URL would be "ws://u:9/b/chat"; the code prepends "/socket.io" and
dials "ws://u:9/socket.io/b/chat". -/
theorem C2_counterexample :
    wsDialURL "http" "u:9" (wsRewritePath "/b" false "/b/chat") "" =
      "ws://u:9/socket.io/b/chat" ∧
    ("ws://u:9/socket.io/b/chat" : String) ≠ "ws://u:9/b/chat" := by decide

theorem stringEq_of_data {s t : String} (h : s.data = t.data) : s = t := by
  cases s
  cases t
  exact congrArg String.mk h

theorem data_append_qmark (a b : String) :
    (a ++ "?" ++ b).data = a.data ++ '?' :: b.data := by
  rw [String.data_append, String.data_append]
  simp

theorem isPrefixOf_append_qsep (bp : List Char) :
    ∀ a b : List Char, ('?' ∈ bp → False) →
      bp.isPrefixOf (a ++ '?' :: b) = bp.isPrefixOf a := by
  induction bp with
  | nil => intro a b h; cases a <;> rfl
  | cons c cs ih =>
    intro a b h
    cases a with
    | nil =>
      have hc : ¬ c = '?' := fun hcq => h (by rw [hcq]; exact List.mem_cons_self _ _)
      simp [List.isPrefixOf, hc]
    | cons a0 as =>
      have h' : '?' ∈ cs → False := fun hm => h (List.mem_cons_of_mem _ hm)
      simp [List.isPrefixOf, ih as b h']

theorem splitAtQMark_append (b : List Char) :
    ∀ a : List Char, ('?' ∈ a → False) →
      splitAtQMark (a ++ '?' :: b) = (a, b) := by
  intro a
  induction a with
  | nil => intro h; simp [splitAtQMark]
  | cons c cs ih =>
    intro h
    have hc : ¬ c = '?' := fun hcq => h (by rw [hcq]; exact List.mem_cons_self _ _)
    have h' : '?' ∈ cs → False := fun hm => h (List.mem_cons_of_mem _ hm)
    simp [splitAtQMark, hc, ih h']

theorem splitAtQMark_no_qmark :
    ∀ a : List Char, ('?' ∈ a → False) → splitAtQMark a = (a, []) := by
  intro a
  induction a with
  | nil => intro h; rfl
  | cons c cs ih =>
    intro h
    have hc : ¬ c = '?' := fun hcq => h (by rw [hcq]; exact List.mem_cons_self _ _)
    have h' : '?' ∈ cs → False := fun hm => h (List.mem_cons_of_mem _ hm)
    simp [splitAtQMark, hc, ih h']

theorem goHasPrefix_mono (s p q : String)
    (hpq : p.data.isPrefixOf q.data = true) (hq : goHasPrefix s q = true) :
    goHasPrefix s p = true := by
  unfold goHasPrefix at hq ⊢
  rw [List.isPrefixOf_iff_prefix] at hpq hq ⊢
  exact hpq.trans hq

theorem goHasPrefix_socketio_slash (w : String) :
    goHasPrefix ("/socket.io" ++ w) "/" = true := by
  unfold goHasPrefix
  rw [String.data_append]
  rfl

theorem prependSocketIO_slash (t : String) :
    goHasPrefix (if goHasPrefix t "/socket.io" then t else "/socket.io" ++ t)
      "/" = true := by
  split
  · next hpre => exact goHasPrefix_mono _ "/" "/socket.io" (by decide) hpre
  · exact goHasPrefix_socketio_slash _

theorem wsRewritePath_slash (basePath : String) (strip : Bool) (path : String) :
    goHasPrefix (wsRewritePath basePath strip path) "/" = true := by
  unfold wsRewritePath
  dsimp only
  exact prependSocketIO_slash _

theorem goTrimPrefix_no_qmark (s pre : String) (hs : '?' ∈ s.data → False) :
    '?' ∈ (goTrimPrefix s pre).data → False := by
  unfold goTrimPrefix
  split
  · intro hm
    exact hs (List.drop_subset _ _ hm)
  · exact hs

theorem prependSocketIO_no_qmark (t : String) (ht : '?' ∈ t.data → False) :
    '?' ∈ (if goHasPrefix t "/socket.io" then t else "/socket.io" ++ t).data →
      False := by
  split
  · exact ht
  · intro hm
    rw [String.data_append] at hm
    rcases List.mem_append.mp hm with h | h
    · revert h
      decide
    · exact ht h

theorem wsRewritePath_no_qmark (basePath : String) (strip : Bool)
    (path : String) (hp : '?' ∈ path.data → False) :
    '?' ∈ (wsRewritePath basePath strip path).data → False := by
  unfold wsRewritePath
  refine prependSocketIO_no_qmark _ ?_
  split
  · dsimp only
    split
    · intro hm
      revert hm
      decide
    · exact goTrimPrefix_no_qmark path basePath hp
  · exact hp

theorem wsPredictedPath_no_qmark (basePath : String) (strip : Bool)
    (reqPath query : String) (hrp : '?' ∈ reqPath.data → False) :
    '?' ∈ (wsPredictedPath basePath strip reqPath query).data → False := by
  unfold wsPredictedPath
  refine prependSocketIO_no_qmark _ ?_
  split
  · dsimp only
    split
    · intro hm
      revert hm
      decide
    · exact goTrimPrefix_no_qmark reqPath basePath hrp
  · exact hrp

theorem goTrimSuffix_no_op (s suf : String) (h : goHasSuffix s suf = false) :
    goTrimSuffix s suf = s := by
  simp [goTrimSuffix, h]

theorem goTrimPrefix_append_qmark (reqPath query basePath : String)
    (hbp : '?' ∈ basePath.data → False) :
    goTrimPrefix (reqPath ++ "?" ++ query) basePath =
      goTrimPrefix reqPath basePath ++ "?" ++ query := by
  unfold goTrimPrefix goHasPrefix
  rw [data_append_qmark]
  rw [isPrefixOf_append_qsep basePath.data reqPath.data query.data hbp]
  split
  · next hpre =>
    have hlen : basePath.data.length ≤ reqPath.data.length :=
      (List.isPrefixOf_iff_prefix.mp hpre).length_le
    rw [List.drop_append_of_le_length hlen]
    apply stringEq_of_data
    rw [data_append_qmark]
  · rfl

theorem wsPredictedPath_no_query (basePath : String) (strip : Bool)
    (reqPath : String) :
    wsPredictedPath basePath strip reqPath "" =
      wsRewritePath basePath strip reqPath := by
  unfold wsPredictedPath wsRewritePath
  simp

theorem wsRewritePath_append_qmark (basePath reqPath query : String)
    (strip : Bool) (hbp : '?' ∈ basePath.data → False) (hq : ¬ query = "") :
    wsRewritePath basePath strip (reqPath ++ "?" ++ query) =
      wsPredictedPath basePath strip reqPath query ++ "?" ++ query := by
  have hpp : ∀ S : String, goHasPrefix (S ++ "?" ++ query) "/socket.io" =
      goHasPrefix S "/socket.io" := by
    intro S
    unfold goHasPrefix
    rw [data_append_qmark]
    exact isPrefixOf_append_qsep "/socket.io".data S.data query.data (by decide)
  have hassoc : ∀ S : String, "/socket.io" ++ (S ++ "?" ++ query) =
      ("/socket.io" ++ S) ++ "?" ++ query := by
    intro S
    apply stringEq_of_data
    rw [String.data_append, data_append_qmark, data_append_qmark,
      String.data_append]
    simp
  unfold wsRewritePath wsPredictedPath
  dsimp only
  by_cases hs : strip = true
  · rw [if_pos hs, if_pos hs]
    rw [goTrimPrefix_append_qmark reqPath query basePath hbp]
    have hne : ¬ (goTrimPrefix reqPath basePath ++ "?" ++ query = "") := by
      intro he
      have h2 := congrArg String.data he
      rw [data_append_qmark] at h2
      simp at h2
    have hcond : ¬ (goTrimPrefix reqPath basePath = "" ∧ query = "") :=
      fun hc => hq hc.2
    rw [if_neg hne, if_neg hcond, hpp]
    by_cases hio : goHasPrefix (goTrimPrefix reqPath basePath) "/socket.io" = true
    · rw [if_pos hio, if_pos hio]
    · rw [if_neg hio, if_neg hio]
      exact hassoc _
  · rw [if_neg hs, if_neg hs, hpp]
    by_cases hio : goHasPrefix reqPath "/socket.io" = true
    · rw [if_pos hio, if_pos hio]
    · rw [if_neg hio, if_neg hio]
      exact hassoc _

theorem wsDialURL_eval (ts th w xq : String)
    (hslash : goHasPrefix w "/" = true) (hw : '?' ∈ w.data → False) :
    wsDialURL ts th w xq =
      wsScheme ts ++ "://" ++ th ++ w ++
        (if xq ≠ "" then "?" ++ xq else "") := by
  unfold wsDialURL wsEnsureSlash urlSplitPathQuery wsQueryParams
  have hens : ¬ (w ≠ "" ∧ goHasPrefix w "/" = false) := by
    rintro ⟨h1, h2⟩
    rw [hslash] at h2
    cases h2
  rw [if_neg hens]
  dsimp only
  rw [splitAtQMark_no_qmark w.data hw]
  dsimp only
  rw [if_neg (by decide : ¬ (String.mk ([] : List Char) ≠ ""))]

theorem wsDialURL_eval_q (ts th T query : String)
    (hslash : goHasPrefix (T ++ "?" ++ query) "/" = true)
    (hT : '?' ∈ T.data → False) (hq : ¬ query = "") :
    wsDialURL ts th (T ++ "?" ++ query) query =
      wsScheme ts ++ "://" ++ th ++ T ++ ("?" ++ query) := by
  unfold wsDialURL wsEnsureSlash urlSplitPathQuery wsQueryParams
  have hens : ¬ (T ++ "?" ++ query ≠ "" ∧
      goHasPrefix (T ++ "?" ++ query) "/" = false) := by
    rintro ⟨h1, h2⟩
    rw [hslash] at h2
    cases h2
  rw [if_neg hens]
  dsimp only
  rw [data_append_qmark, splitAtQMark_append query.data T.data hT]
  dsimp only
  rw [if_pos (show String.mk query.data ≠ "" from hq)]
  rw [if_pos (show String.mk query.data ≠ "" from hq)]

/-- C2 amended: for every WebSocket request dispatched to the WSForwarder
(inbound request paths and configured base paths never contain a question
mark, and no real path ends in a literal "/*"), the upstream dial URL is the
matching ws or wss scheme plus the upstream origin host plus a path
component plus a question mark and the query exactly when the inbound query
is non-empty, where the path component is the inbound path base_path-stripped
iff configured and then prefixed with "/socket.io" whenever it does not
already begin with "/socket.io"; the empty-path default "/" applies only
when the request also carries no query, because handleWebSocket tests the
path with the query already embedded; nothing else is added. -/
theorem C2_amended (targetScheme targetHost basePath : String) (strip : Bool)
    (reqPath query : String)
    (hrp : '?' ∈ reqPath.data → False)
    (hbp : '?' ∈ basePath.data → False)
    (hsuf : goHasSuffix reqPath "/*" = false) :
    wsDialURLOfRequest targetScheme targetHost basePath strip reqPath query =
      wsScheme targetScheme ++ "://" ++ targetHost ++
        wsPredictedPath basePath strip reqPath query ++
        (if query ≠ "" then "?" ++ query else "") := by
  unfold wsDialURLOfRequest wsForwardedPath
  rw [goTrimSuffix_no_op reqPath "/*" hsuf]
  by_cases hq : query = ""
  · subst hq
    rw [if_neg (not_not_intro rfl)]
    rw [wsPredictedPath_no_query]
    exact wsDialURL_eval targetScheme targetHost
      (wsRewritePath basePath strip reqPath) ""
      (wsRewritePath_slash basePath strip reqPath)
      (wsRewritePath_no_qmark basePath strip reqPath hrp)
  · rw [if_pos hq]
    have hrw := wsRewritePath_append_qmark basePath reqPath query strip hbp hq
    have hsl := wsRewritePath_slash basePath strip (reqPath ++ "?" ++ query)
    rw [hrw] at hsl
    rw [hrw, if_pos hq]
    exact wsDialURL_eval_q targetScheme targetHost
      (wsPredictedPath basePath strip reqPath query) query hsl
      (wsPredictedPath_no_qmark basePath strip reqPath query hrp) hq

/-- C2 amended, witnessed at the query-carrying Socket.IO input: service
base_path "/b", strip_base_path=true, inbound GET /b?EIO=4, where the code
dials ws://u:9/socket.io?EIO=4 (the stripped path is "" and the "/" default
does not fire because the embedded query makes the tested string
non-empty). -/
theorem C2_amended_witness :
    wsDialURLOfRequest "http" "u:9" "/b" true "/b" "EIO=4" =
      wsScheme "http" ++ "://" ++ "u:9" ++ wsPredictedPath "/b" true "/b" "EIO=4" ++
        (if ("EIO=4" : String) ≠ "" then "?" ++ "EIO=4" else "") ∧
    wsDialURLOfRequest "http" "u:9" "/b" true "/b" "EIO=4" =
      "ws://u:9/socket.io?EIO=4" :=
  ⟨C2_amended "http" "u:9" "/b" true "/b" "EIO=4" (by decide) (by decide)
      (by decide),
   by decide⟩

/-- C4 counterexample: the claim says the outgoing header set sent to the
upstream contains Sec-WebSocket-Key copied from the original client request.
For a request carrying Sec-WebSocket-Key "k1==", the outgoing dial header
set contains no Sec-WebSocket-Key at all: the router re-adds the four
canonical headers to its intermediate map, but the dial-header loop of
ProxyWebSocket drops every key beginning with Sec-WebSocket- again. -/
theorem C4_counterexample :
    (wsOutHeaders
        [("Host", ["gw:8080"]), ("Upgrade", ["websocket"]),
         ("Connection", ["Upgrade"]), ("Sec-WebSocket-Key", ["k1=="]),
         ("Sec-WebSocket-Version", ["13"]), ("Accept", ["text-html"])]
        "1.2.3.4" "" "u:9").find?
      (fun p => goEqualFold p.1 "Sec-WebSocket-Key") = none ∧
    reqGet
        [("Host", ["gw:8080"]), ("Upgrade", ["websocket"]),
         ("Connection", ["Upgrade"]), ("Sec-WebSocket-Key", ["k1=="]),
         ("Sec-WebSocket-Version", ["13"]), ("Accept", ["text-html"])]
        "Sec-WebSocket-Key" = "k1==" := by decide

/-- C4 amended: the router-level map does contain the four canonical
WebSocket headers copied from the original request, but the dial-time filter
of ProxyWebSocket then drops Upgrade, Connection and every Sec-WebSocket-*
header, the canonical four included, so the outgoing set contains none of
them; every other header with a non-empty, non-bracketed value is kept,
except that Host and X-Source are overridden by the proxy. -/
theorem C4_amended (m : List (String × String))
    (req : List (String × List String)) (ip queryString host : String) :
    (∀ x ∈ dialHeaders m host, wsHeaderDrop x.1 = false) ∧
    (∀ k, (k = "Sec-WebSocket-Key" ∨ k = "Sec-WebSocket-Version" ∨
        k = "Sec-WebSocket-Extensions" ∨ k = "Sec-WebSocket-Protocol") →
      reqGet req k ≠ "" → (k, reqGet req k) ∈ prepWSHeaders req ip queryString) ∧
    (∀ x ∈ m, x.2 ≠ "" → wsHeaderDrop x.1 = false → looksBracketed x.2 = false →
      x.1 ≠ "X-Source" → x.1 ≠ "Host" → x ∈ dialHeaders m host) := by
  refine ⟨?_, ?_, ?_⟩
  · intro x hx
    unfold dialHeaders at hx
    rcases mem_headerSet_cases _ _ _ _ hx with h1 | h1
    · rcases mem_headerSet_cases _ _ _ _ h1 with h2 | h2
      · exact dialFold_drop_false m [] (fun x hx => absurd hx (List.not_mem_nil x)) x h2
      · rw [h2]
        show wsHeaderDrop "X-Source" = false
        decide
    · rw [h1]
      show wsHeaderDrop "Host" = false
      decide
  · intro k hk hv
    unfold prepWSHeaders
    rcases hk with rfl | rfl | rfl | rfl
    · exact mem_prep_post _ _ _ _ _ _
        (mem_canonAdd_of_ne req _
          (mem_canonAdd_of_ne req _
            (mem_canonAdd_of_ne req _ (mem_canonAdd_self req _ _ hv)
              (by decide)) (by decide)) (by decide))
        (by decide) (by decide) (by decide)
    · exact mem_prep_post _ _ _ _ _ _
        (mem_canonAdd_of_ne req _
          (mem_canonAdd_of_ne req _ (mem_canonAdd_self req _ _ hv)
            (by decide)) (by decide))
        (by decide) (by decide) (by decide)
    · exact mem_prep_post _ _ _ _ _ _
        (mem_canonAdd_of_ne req _ (mem_canonAdd_self req _ _ hv) (by decide))
        (by decide) (by decide) (by decide)
    · exact mem_prep_post _ _ _ _ _ _ (mem_canonAdd_self req _ _ hv)
        (by decide) (by decide) (by decide)
  · intro x hx hv hd hb hs hh
    unfold dialHeaders
    apply mem_headerSet_of_ne _ _ _ _ _ hh
    apply mem_headerSet_of_ne _ _ _ _ _ hs
    exact mem_dialFold_of_mem x hv hd hb m [] hx

/-- C4 amended, witnessed: the canonical-key clause at a request carrying
Sec-WebSocket-Key "k1", and the keep clause at a one-entry map holding an
Accept header. -/
theorem C4_amended_witness :
    ("Sec-WebSocket-Key",
        reqGet [("Sec-WebSocket-Key", ["k1"])] "Sec-WebSocket-Key") ∈
      prepWSHeaders [("Sec-WebSocket-Key", ["k1"])] "1.2.3.4" "" ∧
    ("Accept", "text-html") ∈ dialHeaders [("Accept", "text-html")] "u:9" :=
  ⟨(C4_amended [] [("Sec-WebSocket-Key", ["k1"])] "1.2.3.4" "" "u:9").2.1
      "Sec-WebSocket-Key" (Or.inl rfl) (by decide),
   (C4_amended [("Accept", "text-html")] [] "1.2.3.4" "" "u:9").2.2
      ("Accept", "text-html") (by decide) (by decide) (by decide) (by decide)
      (by decide) (by decide)⟩

/-- C5: whenever the circuit breaker is in the Open state (its reset timeout
not yet elapsed at the clock value of the call), Execute returns the
distinguished fiber 503 service-unavailable error, the breaker is left
unchanged, and the wrapped thunk is not invoked. -/
theorem C5_open_refuses (b : Breaker) (now e : Int) (fn : Option GwErr)
    (hstate : b.state = .stOpen) (hexp : b.expiry = some e)
    (hnow : ¬ e < now) :
    cbExecute b now fn =
      (b, some (.fiberErr 503 "Service temporarily unavailable"), false) := by
  simp [cbExecute, gbExecute, beforeRequest, currentState, hstate, hexp, hnow]

/-- C5 witnessed on a concrete open breaker whose reset deadline lies ahead
of the call instant. -/
theorem C5_open_refuses_witness :
    cbExecute ⟨.stOpen, countsClear, 3, some 1000, 4, 0, 30000000000, 4⟩ 500
        (some (.upstream 0)) =
      (⟨.stOpen, countsClear, 3, some 1000, 4, 0, 30000000000, 4⟩,
        some (.fiberErr 503 "Service temporarily unavailable"), false) :=
  C5_open_refuses _ 500 1000 _ rfl rfl (by decide)

/-- C10: a call refused while the breaker is HalfOpen because the probe
limit is reached returns the gobreaker ErrTooManyRequests sentinel unmapped
(and in particular not the fiber 503 service-unavailable error), with the
thunk not invoked: Execute maps only the Open-state refusal to 503. -/
theorem C10_halfopen_unmapped (b : Breaker) (now : Int) (fn : Option GwErr)
    (hstate : b.state = .stHalfOpen)
    (hmax : b.maxRequests ≤ b.counts.requests) :
    cbExecute b now fn = (b, some .gbTooManyRequests, false) ∧
    (∀ msg, GwErr.gbTooManyRequests ≠ GwErr.fiberErr 503 msg) := by
  constructor
  · simp [cbExecute, gbExecute, beforeRequest, currentState, hstate, hmax]
  · intro msg h
    cases h

/-- C10 witnessed on a concrete half-open breaker already at its probe
limit. -/
theorem C10_halfopen_unmapped_witness :
    cbExecute ⟨.stHalfOpen, ⟨2, 1, 1, 1, 0⟩, 7, none, 2, 0, 30000000000, 2⟩ 500
        (some (.upstream 0)) =
      (⟨.stHalfOpen, ⟨2, 1, 1, 1, 0⟩, 7, none, 2, 0, 30000000000, 2⟩,
        some .gbTooManyRequests, false) :=
  (C10_halfopen_unmapped _ 500 _ rfl (by decide)).1

/-- C3 counterexample: with max_retries = 1 a thunk that errors on every
invocation is invoked twice, exceeding the bound of the claim, which allows
at most one invocation. -/
theorem C3_counterexample :
    (retrierRun 1 (fun _ => some (.upstream 0))).2 = 2 ∧ ¬ (2 ≤ 1) := by decide

/-- C3 amended: under the retrier configured with max_retries = N, every
thunk is invoked at most N+1 times, and a thunk returning a non-nil error on
every invocation is invoked exactly N+1 times: the initial attempt plus up
to N retries, one per entry of the backoff slice. -/
theorem C3_amended (maxRetries : Nat) (fn : Nat → Option GwErr) :
    (retrierExecute maxRetries fn).2 ≤ maxRetries + 1 ∧
    ((∀ j, (fn j).isSome = true) →
      (retrierExecute maxRetries fn).2 = maxRetries + 1) :=
  ⟨retrierLoop_count_le fn maxRetries 0,
   fun h => retrierLoop_count_eq fn h maxRetries 0⟩

/-- C3 amended, witnessed on an always-failing thunk with max_retries = 3:
four invocations. -/
theorem C3_amended_witness :
    (∀ j : Nat,
      (((fun _ => some (GwErr.upstream 0)) : Nat → Option GwErr) j).isSome = true) ∧
    (retrierExecute 3 (fun _ => some (GwErr.upstream 0))).2 = 3 + 1 :=
  ⟨fun _ => rfl, (C3_amended 3 (fun _ => some (GwErr.upstream 0))).2 fun _ => rfl⟩

/-- C6: with both wrappers enabled, handleHTTP runs the retrier inside the
breaker.  The response is the breaker's verdict on the final outcome of the
whole retry chain; the breaker after the call depends only on that final
outcome, never on the individual attempts; and one dispatch moves the
breaker's counters by at most one recorded outcome and one admitted request,
even though the thunk may have run maxRetries+1 times. -/
theorem C6_breaker_outer (b : Breaker) (now : Int) (maxRetries : Nat)
    (fn : Nat → Option GwErr) :
    (handleHTTPDispatch true true b now maxRetries fn).1 =
      (cbExecute b now (retrierExecute maxRetries fn).1).2.1 ∧
    (∀ (m2 : Nat) (g : Nat → Option GwErr),
      (retrierExecute maxRetries fn).1 = (retrierExecute m2 g).1 →
      (handleHTTPDispatch true true b now maxRetries fn).2.1 =
        (handleHTTPDispatch true true b now m2 g).2.1) ∧
    totalsOf (handleHTTPDispatch true true b now maxRetries fn).2.1.counts ≤
      totalsOf b.counts + 1 ∧
    (handleHTTPDispatch true true b now maxRetries fn).2.1.counts.requests ≤
      b.counts.requests + 1 := by
  refine ⟨rfl, ?_, ?_, ?_⟩
  · intro m2 g hfin
    show (cbExecute b now (retrierExecute maxRetries fn).1).1 =
      (cbExecute b now (retrierExecute m2 g).1).1
    rw [hfin]
  · show totalsOf (cbExecute b now (retrierExecute maxRetries fn).1).1.counts ≤
      totalsOf b.counts + 1
    rw [cbExecute_breaker_eq]
    exact (gbExecute_breaker_bounds b now _).1
  · show (cbExecute b now (retrierExecute maxRetries fn).1).1.counts.requests ≤
      b.counts.requests + 1
    rw [cbExecute_breaker_eq]
    exact (gbExecute_breaker_bounds b now _).2

/-- C6 witnessed: the final-outcome clause applied to two failing thunks with
different retry budgets but the same final error. -/
theorem C6_breaker_outer_witness :
    (retrierExecute 2 (fun _ => some (GwErr.upstream 7))).1 =
      (retrierExecute 5 (fun i => some (GwErr.upstream (7 + 0 * i)))).1 ∧
    (handleHTTPDispatch true true cbClosedInit 100 2
        (fun _ => some (GwErr.upstream 7))).2.1 =
      (handleHTTPDispatch true true cbClosedInit 100 5
        (fun i => some (GwErr.upstream (7 + 0 * i)))).2.1 :=
  ⟨by decide,
   (C6_breaker_outer cbClosedInit 100 2 (fun _ => some (GwErr.upstream 7))).2.1
      5 (fun i => some (GwErr.upstream (7 + 0 * i))) (by decide)⟩

/-- C7: on a cache constructed with a strictly positive TTL of t seconds,
Set(k,v) at time t0 followed by Get(k) strictly less than t seconds later
returns (v, true), and Get(k) strictly more than t seconds later returns
(nil, false), independently of the sweeper, which the Get path never
consults. -/
theorem C7_cache_ttl (α : Type) (items0 : List (String × CacheItem α))
    (ttl t0 t1 : Int) (k : String) (v : α)
    (httl : 0 < ttl) (ht0 : 0 ≤ t0) :
    (t1 - t0 < ttl * nsPerSecond →
      cacheGet (cacheSet { cacheNew α ttl with items := items0 } k v t0) k t1 =
        (some v, true)) ∧
    (ttl * nsPerSecond < t1 - t0 →
      cacheGet (cacheSet { cacheNew α ttl with items := items0 } k v t0) k t1 =
        (none, false)) := by
  have hns : (0 : Int) < nsPerSecond := by norm_num [nsPerSecond]
  have hT : (0 : Int) < ttl * nsPerSecond := mul_pos httl hns
  constructor <;> intro h
  · simp only [cacheSet, cacheSetWithExpiration, cacheNew, cacheGet, ite_self]
    rw [if_pos hT, assocGet_assocSet_self]
    dsimp only
    rw [if_neg]
    rintro ⟨h1, h2⟩
    generalize hg : ttl * nsPerSecond = T at h h2
    omega
  · simp only [cacheSet, cacheSetWithExpiration, cacheNew, cacheGet, ite_self]
    rw [if_pos hT, assocGet_assocSet_self]
    dsimp only
    rw [if_pos]
    constructor
    · generalize hg : ttl * nsPerSecond = T at hT ⊢
      omega
    · generalize hg : ttl * nsPerSecond = T at h ⊢
      omega

/-- C7 witnessed with ttl 60s: a hit 1µs after Set and a miss 70s after
Set. -/
theorem C7_cache_ttl_witness :
    cacheGet (cacheSet { cacheNew Nat 60 with items := [] } "k" 5 0) "k" 1000 =
      (some 5, true) ∧
    cacheGet (cacheSet { cacheNew Nat 60 with items := [] } "k" 5 0) "k"
        70000000000 = (none, false) :=
  ⟨(C7_cache_ttl Nat [] 60 0 1000 "k" 5 (by decide) (by decide)).1 (by decide),
   (C7_cache_ttl Nat [] 60 0 70000000000 "k" 5 (by decide) (by decide)).2
     (by decide)⟩

/-- C8: Forward modifies the response cache only when caching is enabled
(flag set and cache constructed), the method is GET and the upstream
returned a fully read 200; in every other situation, non-GET methods and
non-200 statuses included, the cache afterwards is exactly the cache
before. -/
theorem C8_cache_insert_only (α : Type) (enableCache hasCache : Bool)
    (req : FwdRequest) (targetOk : Bool) (upstream : UpstreamResult α)
    (c : CacheModel α) (now : Int)
    (hnot : ¬ (enableCache = true ∧ hasCache = true ∧ req.method = "GET" ∧
      ∃ body, upstream = UpstreamResult.ok 200 body)) :
    (httpForward α enableCache hasCache req targetOk upstream c now).2 = c := by
  simp only [httpForward]
  split
  · rfl
  · split
    · rfl
    · split
      · rfl
      · split
        · rfl
        · rfl
        · split
          · next status body hcond =>
            exact absurd ⟨hcond.1, hcond.2.1, hcond.2.2.1, body,
              by rw [hcond.2.2.2]⟩ hnot
          · rfl

/-- C8 witnessed: a POST that returned 200 with caching on leaves the cache
untouched. -/
theorem C8_cache_insert_only_witness :
    (httpForward Nat true true ⟨"", "POST", "/p", ""⟩ true
        (UpstreamResult.ok 200 5) (cacheNew Nat 60) 0).2 = cacheNew Nat 60 :=
  C8_cache_insert_only Nat true true ⟨"", "POST", "/p", ""⟩ true
    (UpstreamResult.ok 200 5) (cacheNew Nat 60) 0
    (by rintro ⟨_, _, hm, _⟩; exact absurd hm (by decide))

/-- C9: cache construction wires the sweeper interval to exactly ttl
seconds, and the ticker construction that startCleanup performs first
panics precisely when that interval is not positive, so a strictly positive
cache_ttl is a precondition of creating the cache. -/
theorem C9_sweeper_ttl (α : Type) (ttl : Int) :
    (cacheNew α ttl).cleanupInterval = ttl * nsPerSecond ∧
    (0 < ttl → startCleanupTicker (cacheNew α ttl) =
      Except.ok (ttl * nsPerSecond)) ∧
    (ttl ≤ 0 → startCleanupTicker (cacheNew α ttl) =
      Except.error "non-positive interval for NewTicker") := by
  have hns : (0 : Int) < nsPerSecond := by norm_num [nsPerSecond]
  refine ⟨rfl, ?_, ?_⟩
  · intro h
    unfold startCleanupTicker newTicker cacheNew
    rw [if_neg (not_le.mpr (mul_pos h hns))]
  · intro h
    unfold startCleanupTicker newTicker cacheNew
    rw [if_pos (mul_nonpos_iff.mpr (Or.inr ⟨h, le_of_lt hns⟩))]

/-- C9 witnessed at ttl 60 (ticker constructed) and ttl -5 (panic). -/
theorem C9_sweeper_ttl_witness :
    startCleanupTicker (cacheNew Nat 60) = Except.ok (60 * nsPerSecond) ∧
    startCleanupTicker (cacheNew Nat (-5)) =
      Except.error "non-positive interval for NewTicker" :=
  ⟨(C9_sweeper_ttl Nat 60).2.1 (by decide),
   (C9_sweeper_ttl Nat (-5)).2.2 (by decide)⟩

end Gateway


